import Mathlib

/-
A verification development for the pks boundary checker.

The definitions below are a shallow embedding of the Rust sources:
  * src/packs/checker/pack_checker.rs  (PackChecker and its gate)
  * src/packs.rs                       (check, add_dependency, list_definitions)
  * src/packs/checker/package_todo.rs  (ledger format-drift validator)
  * src/packs/reference_extractor.rs   (get_all_references)
  * src/packs/text.rs                  (text output)
Rust Option/Result map to Option/Except; a potential panic (an unwrap on a
None value) is modelled by an Option/Except layer whose none/error value
marks the panic.  Parts of the program that the repository keeps in files
not present here (pack.rs, checker.rs, reference.rs, checker_configuration.rs,
package_todo.rs serialization, the per-checker policy files and the upstream
ruby_references crate) are modelled from the specification and are marked as
such in their doc comments.
-/

namespace Pks

/-- Source location of a reference (line and column), from SourceLocation in
src/packs.rs. -/
structure SourceLocation where
  line : Nat
  column : Nat
deriving DecidableEq, Repr

/-- Enforcement setting of one checker on one pack.  Modelled from the spec:
per-checker enforcement is one of disabled, enabled, strict (pack.rs is not in
the source snapshot; the variants False/True/Strict and the predicates
is_false / is_strict are fixed by their uses in
src/packs/checker/pack_checker.rs). -/
inductive CheckerSetting where
  | False
  | True
  | Strict
deriving DecidableEq, Repr

/-- CheckerSetting::is_false: the setting is disabled. -/
def CheckerSetting.is_false : CheckerSetting → Bool
  | .False => true
  | _ => false

/-- CheckerSetting::is_strict: the setting is strict. -/
def CheckerSetting.is_strict : CheckerSetting → Bool
  | .Strict => true
  | _ => false

/-- The five checker types, from CheckerType (checker_configuration.rs, fixed
by its uses in src/packs/checker/pack_checker.rs). -/
inductive CheckerType where
  | Dependency
  | Privacy
  | FolderPrivacy
  | Visibility
  | Layer
deriving DecidableEq, Repr

/-- CheckerConfiguration::checker_name: the lower-case name of a checker type.
The strings are the ones the CSV formatter prints in the repository tests
(checker_configuration.rs is not in the source snapshot). -/
def CheckerType.checker_name : CheckerType → String
  | .Dependency => "dependency"
  | .Privacy => "privacy"
  | .FolderPrivacy => "folder_privacy"
  | .Visibility => "visibility"
  | .Layer => "layer"

/-- One boundary unit with its declared policy, from Pack (pack.rs is not in
the source snapshot; the fields are fixed by their uses in
src/packs/checker/pack_checker.rs and src/packs.rs).  The per-checker ignore
globs of the pack are abstracted into their match predicate
`ignore_globs_match checker_name file_path`. -/
structure Pack where
  name : String
  relative_path : String := ""
  dependencies : List String := []
  enforce_dependencies : Option CheckerSetting := none
  enforce_privacy : Option CheckerSetting := none
  enforce_folder_privacy : Option CheckerSetting := none
  enforce_layers : Option CheckerSetting := none
  enforce_visibility : Option CheckerSetting := none
  layer : Option String := none
  visible_to : List String := []
  ignore_globs_match : String → String → Bool := fun _ _ => false

/-- Pack::is_ignored(file_path, checker_name): whether the pack's ignore rules
for the named checker glob-match the file. -/
def Pack.is_ignored (p : Pack) (file_path checker_name : String) : Bool :=
  p.ignore_globs_match checker_name file_path

/-- Pack::relative_yml: the pack's manifest path. -/
def Pack.relative_yml (p : Pack) : String :=
  p.relative_path ++ "/package.yml"

/-- One observed use of a symbol, from Reference
(src/packs/checker/reference.rs is not in the source snapshot; the fields are
fixed by src/packs/reference_extractor.rs and the tests in
src/packs/checker/pack_checker.rs). -/
structure Reference where
  constant_name : String
  defining_pack_name : Option String
  referencing_pack_name : String
  relative_defining_file : Option String
  relative_referencing_file : String
  source_location : SourceLocation
deriving DecidableEq, Repr

/-- The recorded ledger shape, from the spec (§6): defining-pack-name →
violation-type → set of (constant_name, file) pairs (package_todo.rs
serialization is not in the source snapshot). -/
structure PackageTodo where
  violations_by_defining_pack : List (String × List (String × List (String × String))) := []

/-- The run configuration, from Configuration (configuration.rs is not in the
source snapshot; the fields are fixed by their uses in
src/packs/checker/pack_checker.rs, src/packs.rs and
src/packs/checker/package_todo.rs).  External collaborators are carried as
functions: `file_is_public` is the upstream public-path convention the spec
treats as a precomputed boolean per file, `disk` is the file system,
`parse_package_todo` is the YAML reader and `serialize_package_todo` the
canonical ledger writer. -/
structure Configuration where
  pack_set : List Pack
  disable_enforce_dependencies : Bool := false
  disable_enforce_privacy : Bool := false
  disable_enforce_folder_privacy : Bool := false
  disable_enforce_layers : Bool := false
  disable_enforce_visibility : Bool := false
  layers : List String := []
  file_is_public : String → Bool := fun _ => true
  folder_privacy_allowed : String → String → Bool := fun _ _ => true
  layer_exception_allowed : String → String → Bool := fun _ _ => false
  packs_first_mode : Bool := false
  disk : String → Option String := fun _ => none
  parse_package_todo : String → Option PackageTodo := fun _ => none
  serialize_package_todo : String → PackageTodo → Bool → String := fun _ _ _ => ""
  experimental : Bool := false
  absolute_root : String := ""
  experimental_definitions : List (String × List String) := []
  zeitwerk_definitions : List (String × List String) := []

/-- PackSet lookup by exact pack name, from PackSet::for_pack (pack_set.rs is
not in the source snapshot; lookup by exact name per the spec §3). -/
def for_pack_name (packs : List Pack) (name : String) : Option Pack :=
  packs.find? (fun p => p.name == name)

/-- Reference::referencing_pack: resolve the referencing pack, an error when
the name is unknown. -/
def Reference.referencing_pack (r : Reference) (packs : List Pack) : Except String Pack :=
  match for_pack_name packs r.referencing_pack_name with
  | some p => .ok p
  | none => .error ("No pack found for name " ++ r.referencing_pack_name)

/-- Reference::defining_pack: resolve the defining pack when the reference has
one; an unresolved reference resolves to none, a named but missing pack is an
error. -/
def Reference.defining_pack (r : Reference) (packs : List Pack) : Except String (Option Pack) :=
  match r.defining_pack_name with
  | none => .ok none
  | some n =>
    match for_pack_name packs n with
    | some p => .ok (some p)
    | none => .error ("No pack found for name " ++ n)

/-- The stable identity of a violation, from ViolationIdentifier
(src/packs/checker/pack_checker.rs). -/
structure ViolationIdentifier where
  violation_type : CheckerType
  strict : Bool
  file : String
  constant_name : String
  referencing_pack_name : String
  defining_pack_name : String
deriving DecidableEq, Repr

/-- A violation, from Violation (src/packs/checker/pack_checker.rs plus the
message field used by src/packs/text.rs; message rendering lives in the
formatters and is kept empty at construction). -/
structure Violation where
  message : String := ""
  identifier : ViolationIdentifier
  source_location : SourceLocation
  referencing_pack_relative_yml : String := ""
  defining_layer : Option String := none
  referencing_layer : Option String := none
deriving DecidableEq, Repr

/-- The direction of a checker, from ViolationDirection
(src/packs/checker/pack_checker.rs). -/
inductive ViolationDirection where
  | Incoming
  | Outgoing
deriving DecidableEq, Repr

/-- The per-reference, per-checker-type evaluation context, from PackChecker
(src/packs/checker/pack_checker.rs). -/
structure PackChecker where
  configuration : Configuration
  checker_type : CheckerType
  referencing_pack : Pack
  defining_pack : Option Pack
  reference : Reference

/-- PackChecker::new (src/packs/checker/pack_checker.rs lines 25-41). -/
def PackChecker.new (c : Configuration) (t : CheckerType) (r : Reference) :
    Except String PackChecker :=
  match r.referencing_pack c.pack_set with
  | .error e => .error e
  | .ok rp =>
    match r.defining_pack c.pack_set with
    | .error e => .error e
    | .ok dp =>
      .ok { configuration := c, checker_type := t, referencing_pack := rp,
            defining_pack := dp, reference := r }

/-- PackChecker::violation_direction (src/packs/checker/pack_checker.rs lines
43-52). -/
def PackChecker.violation_direction (pc : PackChecker) : ViolationDirection :=
  match pc.checker_type with
  | .Dependency | .Layer => .Outgoing
  | .Privacy | .FolderPrivacy | .Visibility => .Incoming

/-- PackChecker::rules_pack (src/packs/checker/pack_checker.rs lines 130-137).
The Rust unwrap of the defining pack in the Incoming arm is modelled by the
Option result. -/
def PackChecker.rules_pack (pc : PackChecker) : Option Pack :=
  match pc.violation_direction with
  | .Outgoing => some pc.referencing_pack
  | .Incoming => pc.defining_pack

/-- PackChecker::rules_checker_setting (src/packs/checker/pack_checker.rs
lines 85-102), with checker_setting_for's defaulting of an absent setting to
CheckerSetting::False folded in via getD. -/
def PackChecker.rules_checker_setting (pc : PackChecker) : Option CheckerSetting :=
  pc.rules_pack.map fun p =>
    match pc.checker_type with
    | .Dependency => p.enforce_dependencies.getD .False
    | .FolderPrivacy => p.enforce_folder_privacy.getD .False
    | .Layer => p.enforce_layers.getD .False
    | .Privacy => p.enforce_privacy.getD .False
    | .Visibility => p.enforce_visibility.getD .False

/-- The run-wide disable flag for a checker type, read from the
configuration; the body of PackChecker::violation_globally_disabled
(src/packs/checker/pack_checker.rs lines 104-118). -/
def global_flag (c : Configuration) : CheckerType → Bool
  | .Dependency => c.disable_enforce_dependencies
  | .FolderPrivacy => c.disable_enforce_folder_privacy
  | .Layer => c.disable_enforce_layers
  | .Privacy => c.disable_enforce_privacy
  | .Visibility => c.disable_enforce_visibility

/-- PackChecker::violation_globally_disabled (src/packs/checker/pack_checker.rs
lines 104-118). -/
def PackChecker.violation_globally_disabled (pc : PackChecker) : Bool :=
  global_flag pc.configuration pc.checker_type

/-- PackChecker::is_ignored (src/packs/checker/pack_checker.rs lines 139-150).
The Rust unwrap of relative_defining_file in the Outgoing arm is modelled by
the Option result: none is the panic. -/
def PackChecker.is_ignored (pc : PackChecker) : Option Bool :=
  match (match pc.violation_direction with
         | .Incoming => some pc.reference.relative_referencing_file
         | .Outgoing => pc.reference.relative_defining_file) with
  | none => none
  | some file_path =>
    match pc.rules_pack with
    | none => none
    | some rules => some (rules.is_ignored file_path pc.checker_type.checker_name)

/-- PackChecker::checkable (src/packs/checker/pack_checker.rs lines 54-71):
the five-step gate.  The result is none when the Rust code would panic on an
unwrap inside rules_checker_setting or is_ignored. -/
def PackChecker.checkable (pc : PackChecker) : Option Bool :=
  match pc.defining_pack with
  | none => some false
  | some dp =>
    if dp.name = pc.referencing_pack.name then some false
    else
      match pc.rules_checker_setting with
      | none => none
      | some s =>
        if s.is_false then some false
        else if pc.violation_globally_disabled then some false
        else
          match pc.is_ignored with
          | none => none
          | some b => if b then some false else some true

/-- PackChecker::is_strict (src/packs/checker/pack_checker.rs lines 73-75).
The Option result models the unwrap inside rules_checker_setting. -/
def PackChecker.is_strict (pc : PackChecker) : Option Bool :=
  pc.rules_checker_setting.map CheckerSetting.is_strict

/-- PackChecker::violation_identifier (src/packs/checker/pack_checker.rs lines
177-186).  The Option result models the unwraps of is_strict and the defining
pack. -/
def PackChecker.violation_identifier (pc : PackChecker) : Option ViolationIdentifier :=
  match pc.is_strict with
  | none => none
  | some strict =>
    match pc.defining_pack with
    | none => none
    | some dp =>
      some { violation_type := pc.checker_type, strict := strict,
             file := pc.reference.relative_referencing_file,
             constant_name := pc.reference.constant_name,
             referencing_pack_name := pc.referencing_pack.name,
             defining_pack_name := dp.name }

/-- PackChecker::violation (src/packs/checker/pack_checker.rs lines 154-175):
construct a violation with optional layer information. -/
def PackChecker.violation (pc : PackChecker) (layer_info : Option (String × String)) :
    Option Violation :=
  match pc.violation_identifier with
  | none => none
  | some id =>
    some { message := "", identifier := id,
           source_location := pc.reference.source_location,
           referencing_pack_relative_yml := pc.referencing_pack.relative_yml,
           defining_layer := layer_info.map Prod.fst,
           referencing_layer := layer_info.map Prod.snd }

theorem for_pack_name_name {packs : List Pack} {n : String} {p : Pack}
    (h : for_pack_name packs n = some p) : p.name = n := by
  have := List.find?_some h
  exact eq_of_beq this

/-- Modelled from the spec: the per-type policy decision of the five checker
files (dependency.rs, privacy.rs, folder_privacy.rs, visibility.rs, layer.rs
are not in the source snapshot), §4.2 "Policy semantics per type".  Privacy
and FolderPrivacy use the upstream-supplied public-path booleans; Layer
compares positions in the global layer order (index 0 is the highest layer)
with an explicit allow-list exception. -/
def policy_violated (c : Configuration) (t : CheckerType) (rp dp : Pack) (r : Reference) : Bool :=
  match t with
  | .Dependency => !(rp.dependencies.contains dp.name)
  | .Privacy => !((r.relative_defining_file.map c.file_is_public).getD false)
  | .FolderPrivacy =>
    !(c.folder_privacy_allowed r.relative_referencing_file
        ((r.relative_defining_file).getD ""))
  | .Visibility => !(dp.visible_to.contains rp.name)
  | .Layer =>
    match dp.layer, rp.layer with
    | some dl, some rl =>
      match c.layers.indexOf? dl, c.layers.indexOf? rl with
      | some di, some ri => decide (di < ri) && !(c.layer_exception_allowed rp.name dp.name)
      | _, _ => false
    | _, _ => false

/-- Layer information attached to a Layer violation: both layer names, when
present (layer.rs is not in the source snapshot; modelled from the spec §4.2
"the produced Violation carries both layer names"). -/
def layer_info_for (pc : PackChecker) (dp : Pack) : Option (String × String) :=
  match pc.checker_type with
  | .Layer =>
    match dp.layer, pc.referencing_pack.layer with
    | some dl, some rl => some (dl, rl)
    | _, _ => none
  | _ => none

/-- Modelled from the spec: CheckerInterface::check for one checker type
(checker.rs and the per-checker files are not in the source snapshot): build
the PackChecker, stop with no violation unless the checkable gate passes, and
construct a violation exactly when the type's policy is violated.  An error
models a Rust error or panic aborting the run. -/
def run_checker (c : Configuration) (t : CheckerType) (r : Reference) :
    Except String (Option Violation) :=
  match PackChecker.new c t r with
  | .error e => .error e
  | .ok pc =>
    match pc.checkable with
    | none => .error "panicked: called unwrap on a None value"
    | some false => .ok none
    | some true =>
      match pc.defining_pack with
      | none => .error "panicked: called unwrap on a None value"
      | some dp =>
        if policy_violated c t pc.referencing_pack dp r then
          match pc.violation (layer_info_for pc dp) with
          | none => .error "panicked: called unwrap on a None value"
          | some v => .ok (some v)
        else .ok none

/-- The closed list of checker types the evaluator runs per reference
(spec §4.2: five checker types; §9: a closed tagged-variant enumeration). -/
def allCheckerTypes : List CheckerType :=
  [.Dependency, .Privacy, .FolderPrivacy, .Visibility, .Layer]

/-- Modelled from the spec (§4.3): run the given checker types on one
reference and collect the violations. -/
def check_reference_types (c : Configuration) (r : Reference) :
    List CheckerType → Except String (List Violation)
  | [] => .ok []
  | t :: ts =>
    match run_checker c t r with
    | .error e => .error e
    | .ok ov =>
      match check_reference_types c r ts with
      | .error e => .error e
      | .ok vs => .ok (ov.toList ++ vs)

/-- Modelled from the spec (§4.3): all violations of a run, over every
reference and every checker type. -/
def all_violations (c : Configuration) : List Reference → Except String (List Violation)
  | [] => .ok []
  | r :: rs =>
    match check_reference_types c r allCheckerTypes with
    | .error e => .error e
    | .ok vs =>
      match all_violations c rs with
      | .error e => .error e
      | .ok rest => .ok (vs ++ rest)

/-- A recorded-ledger entry matches a current violation identifier when every
identity field except the strict flag agrees (spec §3: the identifier is the
join key against the recorded ledger; §4.4 recorded entries are keyed by
violation type and referencing file/constant pairs). -/
def matches_todo (id td : ViolationIdentifier) : Bool :=
  id.violation_type == td.violation_type && id.file == td.file &&
    id.constant_name == td.constant_name &&
    id.referencing_pack_name == td.referencing_pack_name &&
    id.defining_pack_name == td.defining_pack_name

/-- The three result sets of a check run, from CheckAllResult (checker.rs is
not in the source snapshot; the fields are fixed by their uses in
src/packs/text.rs and src/packs/json.rs). -/
structure CheckAllResult where
  reportable_violations : List Violation
  stale_violations : List ViolationIdentifier
  strict_mode_violations : List Violation
deriving DecidableEq, Repr

/-- CheckAllResult::has_violations (checker.rs is not in the source snapshot;
pinned by the success computation in src/packs/json.rs lines 95-97 and the
exit-code assertions of src/tests/check_test.rs): any reportable, stale or
strict entry counts. -/
def CheckAllResult.has_violations (res : CheckAllResult) : Bool :=
  !res.reportable_violations.isEmpty || !res.stale_violations.isEmpty ||
    !res.strict_mode_violations.isEmpty

/-- Modelled from the spec (§4.3, §4.4): partition the computed violations
against the recorded ledger.  Strict violations always surface in
strict_mode_violations and never in reportable_violations; non-strict
violations are reportable unless a matching ledger entry exists (or ledger
suppression is disabled by the run flag); a ledger entry with no matching
current violation is stale. -/
def reconcile (vs : List Violation) (todos : List ViolationIdentifier)
    (ignore_recorded : Bool) : CheckAllResult :=
  { reportable_violations :=
      vs.filter fun v =>
        !v.identifier.strict &&
          (ignore_recorded || !(todos.any (matches_todo v.identifier))),
    stale_violations :=
      todos.filter fun td => !(vs.any fun v => matches_todo v.identifier td),
    strict_mode_violations := vs.filter fun v => v.identifier.strict }

/-- Modelled from the spec (§4.3, §4.4): checker::check_all — compute all
violations and reconcile them against the recorded ledger. -/
def check_all (c : Configuration) (rs : List Reference)
    (todos : List ViolationIdentifier) (ignore_recorded : Bool) :
    Except String CheckAllResult :=
  match all_violations c rs with
  | .error e => .error e
  | .ok vs => .ok (reconcile vs todos ignore_recorded)

/-- build_strict_violation_message (checker.rs is not in the source snapshot;
the wording is pinned by src/tests/check_test.rs lines 330-335). -/
def build_strict_violation_message (id : ViolationIdentifier) : String :=
  id.referencing_pack_name ++ " cannot have " ++ id.violation_type.checker_name ++
    " violations on " ++ id.defining_pack_name ++
    " because strict mode is enabled for " ++ id.violation_type.checker_name ++
    " violations in the enforcing pack\x27s package.yml file"

/-- The stale-violation hint line printed by src/packs/text.rs lines 84-90;
bin_locater::packs_bin_name() is "packs" per the expectation in
src/tests/check_test.rs lines 262-264. -/
def stale_hint_line : String :=
  "There were stale violations found, please run `packs update`"

/-- format_violation_message (src/packs/text.rs lines 39-59), default
template: the location on its own line before the message (the custom
reference-location placeholder branch is not exercised by violations built
here, whose messages are empty). -/
def format_violation_message (v : Violation) : String :=
  v.identifier.file ++ ":" ++ toString v.source_location.line ++ ":" ++
    toString v.source_location.column ++ "\n" ++ v.message

/-- Insertion step for the message sort of src/packs/text.rs line 74. -/
def insert_by_message (v : Violation) : List Violation → List Violation
  | [] => [v]
  | w :: ws =>
    if v.message ≤ w.message then v :: w :: ws else w :: insert_by_message v ws

/-- The sort of reportable violations by message (src/packs/text.rs lines
72-74). -/
def sort_by_message : List Violation → List Violation
  | [] => []
  | v :: vs => insert_by_message v (sort_by_message vs)

/-- write_text (src/packs/text.rs lines 61-99) as the list of written lines:
nothing but a success line when the result has no violations; otherwise the
reportable block, the stale hint, and a strict message per strict
violation. -/
def write_text_lines (result : CheckAllResult) : List String :=
  if !result.has_violations then ["No violations detected!"]
  else
    (if !result.reportable_violations.isEmpty then
      (toString result.reportable_violations.length ++ " violation(s) detected:") ::
        (sort_by_message result.reportable_violations).map
          (fun v => format_violation_message v ++ "\n")
     else []) ++
    (if !result.stale_violations.isEmpty then [stale_hint_line] else []) ++
    result.strict_mode_violations.map (fun v => build_strict_violation_message v.identifier)

/-- The observable outcome of the check command: success (exit zero),
Err(ViolationsFound) (exit non-zero), or another error. -/
inductive CheckOutcome where
  | success
  | violationsFound
  | failed (msg : String)
deriving DecidableEq, Repr

/-- packs::check (src/packs.rs lines 92-123): run check_all, write the text
output, and return Err(ViolationsFound) exactly when the result has
violations. -/
def pks_check (c : Configuration) (rs : List Reference)
    (todos : List ViolationIdentifier) : List String × CheckOutcome :=
  match check_all c rs todos false with
  | .error e => ([], .failed e)
  | .ok result =>
    (write_text_lines result,
     if result.has_violations then .violationsFound else .success)

/-- Set the run-wide disable flag for one checker type (the CLI flags
--disable-enforce-* handled in src/packs.rs / cli.rs). -/
def set_disabled (c : Configuration) : CheckerType → Configuration
  | .Dependency => { c with disable_enforce_dependencies := true }
  | .Privacy => { c with disable_enforce_privacy := true }
  | .FolderPrivacy => { c with disable_enforce_folder_privacy := true }
  | .Layer => { c with disable_enforce_layers := true }
  | .Visibility => { c with disable_enforce_visibility := true }

/-- The path of a pack's ledger file: pack.yml.parent().join("package_todo.yml")
from src/packs/checker/package_todo.rs line 41. -/
def package_todo_path (p : Pack) : String :=
  p.relative_path ++ "/package_todo.yml"

/-- The fix command the format-drift validator names, depending on
packs_first_mode (src/packs/checker/package_todo.rs line 108). -/
def fix_command (packs_first_mode : Bool) : String :=
  if packs_first_mode then "pks update" else "bin/packwerk update-todo"

/-- The error message of the format-drift validator for one mismatching file
(src/packs/checker/package_todo.rs lines 105-109). -/
def format_error_message (path : String) (packs_first_mode : Bool) : String :=
  "Package todo file " ++ path ++
    " is not in the expected format. Please run `" ++
    fix_command packs_first_mode ++ "` to fix it."

/-- validate_package_todo_format (src/packs/checker/package_todo.rs lines
83-113): read the file, deserialize it, re-serialize it with the canonical
writer, and compare byte-for-byte; some message is a validation failure. -/
def validate_package_todo_format (c : Configuration) (path pack_name : String) :
    Option String :=
  match c.disk path with
  | none => some ("Failed to read " ++ path)
  | some current_content =>
    match c.parse_package_todo current_content with
    | none => some ("Failed to parse " ++ path)
    | some package_todo =>
      if current_content =
          c.serialize_package_todo pack_name package_todo c.packs_first_mode then
        none
      else
        some (format_error_message path c.packs_first_mode)

/-- Checker::validate of the format-drift validator
(src/packs/checker/package_todo.rs lines 37-58): skip packs without a ledger
file, collect one error per failing file, none when all files are correctly
formatted. -/
def package_todo_validate (c : Configuration) : Option (List String) :=
  let validation_errors := c.pack_set.filterMap fun p =>
    if (c.disk (package_todo_path p)).isSome then
      validate_package_todo_format c (package_todo_path p) p.name
    else none
  if validation_errors.isEmpty then none else some validation_errors

/-- Dependencies of the named pack in a pack set, empty when absent. -/
def deps_of (packs : List Pack) (name : String) : List String :=
  ((for_pack_name packs name).map Pack.dependencies).getD []

/-- Fuel-bounded reachability in the pack dependency graph along at least one
edge (spec §9: standard depth-first cycle detection over forward edges). -/
def can_reach (packs : List Pack) : Nat → String → String → Bool
  | 0, _, _ => false
  | fuel + 1, src, tgt =>
    (deps_of packs src).any fun d => d == tgt || can_reach packs fuel d tgt

/-- A pack that can reach itself following dependency edges (spec §4.2
validation mode: following dependency edges from any pack revisits that
pack). -/
def has_cycle (packs : List Pack) : Bool :=
  packs.any fun p => can_reach packs packs.length p.name p.name

/-- Modelled from the spec (§4.2 validation mode; checker.rs validate_all is
not in the source snapshot): validation succeeds (true) unless a declared
dependency name does not resolve to an existing pack or the dependency graph
has a cycle. -/
def validate_all (packs : List Pack) : Bool :=
  (packs.all fun p => p.dependencies.all fun d => (for_pack_name packs d).isSome) &&
    !(has_cycle packs)

/-- Pack::add_dependency (pack.rs is not in the source snapshot; spec §3: a
new dependency is appended, producing a new Pack value). -/
def Pack.add_dependency (p q : Pack) : Pack :=
  { p with dependencies := p.dependencies ++ [q.name] }

/-- write_pack_to_disk as a state update on the set of manifests (pack.rs is
not in the source snapshot): the pack with the same name is replaced by the
new value. -/
def write_pack_to_disk (packs : List Pack) (p : Pack) : List Pack :=
  packs.map fun q => if q.name == p.name then p else q

/-- packs::add_dependency (src/packs.rs lines 129-172), with the on-disk pack
set as explicit state and the printed lines as the second component: resolve
both packs, return early when the edge already exists, otherwise write the
new pack, refetch and validate, and print a cycle warning instead of
returning an error when validation of the new configuration fails. -/
def add_dependency (packs : List Pack) (from_name to_name : String) :
    Except String (List Pack × List String) :=
  match for_pack_name packs from_name with
  | none => .error ("`" ++ from_name ++ "` not found")
  | some from_pack =>
    match for_pack_name packs to_name with
    | none => .error ("`" ++ to_name ++ "` not found")
    | some to_pack =>
      if from_pack.dependencies.contains to_pack.name then
        .ok (packs, ["`" ++ from_pack.name ++ "` already depends on `" ++
          to_pack.name ++ "`!"])
      else
        let new_from_pack := from_pack.add_dependency to_pack
        let new_packs := write_pack_to_disk packs new_from_pack
        if validate_all new_packs then
          .ok (new_packs, ["Successfully added `" ++ to_name ++
            "` as a dependency to `" ++ from_name ++ "`!"])
        else
          .ok (new_packs, ["Added `" ++ to_name ++ "` as a dependency to `" ++
            from_name ++ "`!", "Warning: This creates a cycle!"])

/-- Path::strip_prefix as used by list_definitions (src/packs.rs lines
306-309): remove the root prefix, an error when the root is not a prefix. -/
def strip_prefix (root p : String) : Except String String :=
  if root.data.isPrefixOf p.data then .ok ⟨p.data.drop root.data.length⟩
  else .error ("path " ++ p ++ " is not under " ++ root)

/-- Relativize every definition path of one constant against the project
root, propagating the first strip_prefix error (src/packs.rs lines 306-311). -/
def rel_defs (root : String) : List String → Except String (List String)
  | [] => .ok []
  | p :: ps =>
    match strip_prefix root p with
    | .error e => .error e
    | .ok r =>
      match rel_defs root ps with
      | .error e => .error e
      | .ok rs => .ok (r :: rs)

/-- The printing loop of list_definitions (src/packs.rs lines 301-313) as the
list of (name, relative path) pairs it prints: a name with exactly one
definition is skipped in ambiguous mode. -/
def print_defs (root : String) (ambiguous : Bool) :
    List (String × List String) → Except String (List (String × String))
  | [] => .ok []
  | (name, ds) :: rest =>
    if ambiguous && ds.length == 1 then print_defs root ambiguous rest
    else
      match rel_defs root ds with
      | .error e => .error e
      | .ok rels =>
        match print_defs root ambiguous rest with
        | .error e => .error e
        | .ok tail => .ok (rels.map (fun rel => (name, rel)) ++ tail)

/-- packs::list_definitions (src/packs.rs lines 272-315).  The two resolver
strategies are carried as the already-built name → definitions maps of the
configuration (the resolvers themselves are external to the claims); with the
non-experimental strategy, ambiguous mode bails out before the resolver is
consulted. -/
def list_definitions (c : Configuration) (ambiguous : Bool) :
    Except String (List (String × String)) :=
  if c.experimental then
    print_defs c.absolute_root ambiguous c.experimental_definitions
  else if ambiguous then
    .error "Ambiguous mode is not supported for the Zeitwerk parser"
  else
    print_defs c.absolute_root ambiguous c.zeitwerk_definitions

/-- One reference as produced by the upstream ruby_references crate before the
repository enriches it (modelled from the spec §6 parsing collaborator
contract: the defining side is a single resolved absolute file path, from
which the upstream crate also derives the relative defining file). -/
structure RawReference where
  constant_name : String
  referencing_file : String
  defining_file_path : Option String
  relative_referencing_file : String
  source_location : SourceLocation
deriving DecidableEq, Repr

/-- The extra pack-name fields computed by
PackageNames::extra_reference_fields_fn
(src/packs/reference_extractor.rs lines 32-53): the referencing pack from the
referencing file, the defining pack from the defining file path when both the
path and its owning pack exist. -/
def extra_reference_fields (owning : String → Option String)
    (referencing_file : String) (defining_file_path : Option String) :
    Option String × Option String :=
  (owning referencing_file, defining_file_path.bind owning)

/-- get_all_references (src/packs/reference_extractor.rs lines 84-138):
upstream references whose referencing pack is unknown are dropped; the rest
become References whose defining pack name and relative defining file both
derive from the same resolved defining file path (`owning` is the owning pack
index, `relativize` the upstream path relativization against the project
root). -/
def get_all_references (owning : String → Option String)
    (relativize : String → String) (raws : List RawReference) : List Reference :=
  raws.filterMap fun raw =>
    match extra_reference_fields owning raw.referencing_file raw.defining_file_path with
    | (none, _) => none
    | (some rpn, dpn) =>
      some { constant_name := raw.constant_name,
             defining_pack_name := dpn,
             referencing_pack_name := rpn,
             relative_defining_file := raw.defining_file_path.map relativize,
             relative_referencing_file := raw.relative_referencing_file,
             source_location := raw.source_location }

theorem write_pack_find (packs : List Pack) (p q : Pack) (n : String)
    (hn : p.name = n) (hq : for_pack_name packs n = some q) :
    for_pack_name (write_pack_to_disk packs p) n = some p := by
  induction packs with
  | nil => simp [for_pack_name] at hq
  | cons hd tl ih =>
    have hmap : write_pack_to_disk (hd :: tl) p =
        (if hd.name == p.name then p else hd) :: write_pack_to_disk tl p := rfl
    rw [hmap]
    by_cases hb : hd.name = n
    · have h1 : (hd.name == p.name) = true := by rw [hb, hn]; exact beq_self_eq_true n
      have h2 : (p.name == n) = true := beq_iff_eq.mpr hn
      rw [if_pos h1]
      simp only [for_pack_name, List.find?_cons, h2]
    · have h1 : (hd.name == n) = false := by simpa using hb
      have h2 : (hd.name == p.name) = false := by
        rw [hn]
        simpa using hb
      rw [if_neg (by simp [h2])]
      have hq' : for_pack_name tl n = some q := by
        simp only [for_pack_name, List.find?_cons, h1] at hq
        exact hq
      have hrest := ih hq'
      simp only [for_pack_name, List.find?_cons, h1]
      exact hrest

/-- C2: the Dependency and Layer checkers are outgoing — the rule-owning pack
is the referencing pack and its ignore globs are tested against the
reference's defining file — while the Privacy, FolderPrivacy and Visibility
checkers are incoming — the rule-owning pack is the defining pack and its
ignore globs are tested against the reference's referencing file. -/
theorem c2_direction_rules_pack_ignore (pc : PackChecker) :
    ((pc.checker_type = .Dependency ∨ pc.checker_type = .Layer) →
      pc.violation_direction = .Outgoing ∧
      pc.rules_pack = some pc.referencing_pack ∧
      pc.is_ignored = pc.reference.relative_defining_file.map
        (fun f => pc.referencing_pack.is_ignored f pc.checker_type.checker_name)) ∧
    ((pc.checker_type = .Privacy ∨ pc.checker_type = .FolderPrivacy ∨
        pc.checker_type = .Visibility) →
      pc.violation_direction = .Incoming ∧
      pc.rules_pack = pc.defining_pack ∧
      pc.is_ignored = pc.defining_pack.map
        (fun dp => dp.is_ignored pc.reference.relative_referencing_file
          pc.checker_type.checker_name)) := by
  obtain ⟨c, t, rp, dp, r⟩ := pc
  obtain ⟨cn, dpn, rpn, rdf, rrf, sl⟩ := r
  constructor
  · rintro (rfl | rfl) <;> exact ⟨rfl, rfl, by cases rdf <;> rfl⟩
  · rintro (rfl | rfl | rfl) <;> exact ⟨rfl, rfl, by cases dp <;> rfl⟩

/-- A concrete PackChecker for exercising c2_direction_rules_pack_ignore. -/
def c2_pc : PackChecker :=
  { configuration := { pack_set := [] },
    checker_type := .Dependency,
    referencing_pack := { name := "packs/foo" },
    defining_pack := some { name := "packs/bar" },
    reference :=
      { constant_name := "::Bar",
        defining_pack_name := some "packs/bar",
        referencing_pack_name := "packs/foo",
        relative_defining_file := some "packs/bar/app/services/bar.rb",
        relative_referencing_file := "packs/foo/app/services/foo.rb",
        source_location := { line := 3, column := 4 } } }

theorem c2_direction_rules_pack_ignore_witness :
    c2_pc.violation_direction = .Outgoing ∧
    c2_pc.rules_pack = some c2_pc.referencing_pack :=
  ⟨((c2_direction_rules_pack_ignore c2_pc).1 (Or.inl rfl)).1,
   ((c2_direction_rules_pack_ignore c2_pc).1 (Or.inl rfl)).2.1⟩

/-- C10: when the requested dependency edge already exists, add_dependency
returns Ok after printing only an informational message, and the on-disk pack
set is unchanged. -/
theorem c10_add_dependency_noop (packs : List Pack) (from_name to_name : String)
    (from_pack to_pack : Pack)
    (hf : for_pack_name packs from_name = some from_pack)
    (ht : for_pack_name packs to_name = some to_pack)
    (hdep : from_pack.dependencies.contains to_pack.name = true) :
    add_dependency packs from_name to_name =
      .ok (packs, ["`" ++ from_pack.name ++ "` already depends on `" ++
        to_pack.name ++ "`!"]) := by
  simp only [add_dependency, hf, ht]
  rw [if_pos hdep]

/-- Packs for the add_dependency witnesses: a depends on nothing, b depends
on a. -/
def c10_packs : List Pack :=
  [{ name := "packs/a", dependencies := ["packs/b"] }, { name := "packs/b" }]

theorem c10_add_dependency_noop_witness :
    add_dependency c10_packs "packs/a" "packs/b" =
      .ok (c10_packs, ["`" ++ "packs/a" ++ "` already depends on `" ++
        "packs/b" ++ "`!"]) :=
  c10_add_dependency_noop c10_packs "packs/a" "packs/b"
    { name := "packs/a", dependencies := ["packs/b"] } { name := "packs/b" }
    rfl rfl rfl

/-- C7: when adding the new dependency edge makes the pack graph cyclic, the
operation still succeeds — the edge is written and kept, the new pack is what
a lookup now returns, and the printed lines carry the cycle warning instead
of an error. -/
theorem c7_add_dependency_cycle_warns (packs : List Pack)
    (from_name to_name : String) (from_pack to_pack : Pack)
    (hf : for_pack_name packs from_name = some from_pack)
    (ht : for_pack_name packs to_name = some to_pack)
    (hnew : from_pack.dependencies.contains to_pack.name = false)
    (hcycle : has_cycle (write_pack_to_disk packs (from_pack.add_dependency to_pack)) = true) :
    add_dependency packs from_name to_name =
      .ok (write_pack_to_disk packs (from_pack.add_dependency to_pack),
        ["Added `" ++ to_name ++ "` as a dependency to `" ++ from_name ++ "`!",
         "Warning: This creates a cycle!"]) ∧
    to_pack.name ∈ (from_pack.add_dependency to_pack).dependencies ∧
    for_pack_name (write_pack_to_disk packs (from_pack.add_dependency to_pack))
      from_name = some (from_pack.add_dependency to_pack) := by
  refine ⟨?_, ?_, ?_⟩
  · have hval : validate_all (write_pack_to_disk packs (from_pack.add_dependency to_pack)) = false := by
      simp [validate_all, hcycle]
    simp only [add_dependency, hf, ht]
    rw [if_neg (by rw [hnew]; exact Bool.false_ne_true),
      if_neg (by rw [hval]; exact Bool.false_ne_true)]
  · simp [Pack.add_dependency]
  · have hname : (from_pack.add_dependency to_pack).name = from_name := by
      simpa [Pack.add_dependency] using for_pack_name_name hf
    exact write_pack_find packs (from_pack.add_dependency to_pack) from_pack
      from_name hname hf

/-- Packs for the cycle witness: a and b, with b already depending on a; the
witness adds a → b, closing the cycle. -/
def c7_packs : List Pack :=
  [{ name := "packs/a" }, { name := "packs/b", dependencies := ["packs/a"] }]

theorem c7_add_dependency_cycle_warns_witness :
    add_dependency c7_packs "packs/a" "packs/b" =
      .ok (write_pack_to_disk c7_packs
            (Pack.add_dependency { name := "packs/a" }
              { name := "packs/b", dependencies := ["packs/a"] }),
        ["Added `" ++ "packs/b" ++ "` as a dependency to `" ++ "packs/a" ++ "`!",
         "Warning: This creates a cycle!"]) :=
  (c7_add_dependency_cycle_warns c7_packs "packs/a" "packs/b"
    { name := "packs/a" } { name := "packs/b", dependencies := ["packs/a"] }
    rfl rfl rfl rfl).1

theorem per_pack_validation_none (c : Configuration) (p : Pack) :
    (if (c.disk (package_todo_path p)).isSome then
        validate_package_todo_format c (package_todo_path p) p.name
      else none) = none ↔
    ∀ content, c.disk (package_todo_path p) = some content →
      ∃ todo, c.parse_package_todo content = some todo ∧
        c.serialize_package_todo p.name todo c.packs_first_mode = content := by
  cases hd : c.disk (package_todo_path p) with
  | none => simp
  | some content =>
    simp only [Option.isSome_some, if_true]
    cases hp : c.parse_package_todo content with
    | none =>
      have hval : validate_package_todo_format c (package_todo_path p) p.name =
          some ("Failed to parse " ++ package_todo_path p) := by
        simp only [validate_package_todo_format, hd, hp]
      rw [hval]
      simp only [reduceCtorEq, false_iff, not_forall]
      refine ⟨content, rfl, ?_⟩
      rintro ⟨todo, htodo, -⟩
      rw [hp] at htodo
      exact absurd htodo (by simp)
    | some todo =>
      by_cases hs : content = c.serialize_package_todo p.name todo c.packs_first_mode
      · have hval : validate_package_todo_format c (package_todo_path p) p.name = none := by
          simp only [validate_package_todo_format, hd, hp, if_pos hs]
        rw [hval]
        simp only [true_iff]
        intro content' hc
        obtain rfl : content = content' := by injection hc
        exact ⟨todo, hp, hs.symm⟩
      · have hval : validate_package_todo_format c (package_todo_path p) p.name =
            some (format_error_message (package_todo_path p) c.packs_first_mode) := by
          simp only [validate_package_todo_format, hd, hp, if_neg hs]
        rw [hval]
        simp only [reduceCtorEq, false_iff, not_forall]
        refine ⟨content, rfl, ?_⟩
        rintro ⟨todo', htodo', hser⟩
        rw [hp] at htodo'
        obtain rfl : todo = todo' := by injection htodo'
        exact hs hser.symm

/-- C6: the format-drift validator returns no errors exactly when every
existing ledger file deserializes and re-serializes byte-identically through
the canonical writer, and every file that deserializes but does not match
contributes a validation error naming the fix command. -/
theorem c6_format_drift_validator (c : Configuration) :
    (package_todo_validate c = none ↔
      ∀ p ∈ c.pack_set, ∀ content, c.disk (package_todo_path p) = some content →
        ∃ todo, c.parse_package_todo content = some todo ∧
          c.serialize_package_todo p.name todo c.packs_first_mode = content) ∧
    (∀ p ∈ c.pack_set, ∀ content todo,
      c.disk (package_todo_path p) = some content →
      c.parse_package_todo content = some todo →
      ¬(c.serialize_package_todo p.name todo c.packs_first_mode = content) →
      ∃ errs, package_todo_validate c = some errs ∧
        format_error_message (package_todo_path p) c.packs_first_mode ∈ errs ∧
        ∃ pre post, format_error_message (package_todo_path p) c.packs_first_mode =
          pre ++ fix_command c.packs_first_mode ++ post) := by
  constructor
  · unfold package_todo_validate
    by_cases he : (c.pack_set.filterMap fun p =>
        if (c.disk (package_todo_path p)).isSome then
          validate_package_todo_format c (package_todo_path p) p.name
        else none) = []
    · rw [if_pos (by simp [he])]
      simp only [true_iff]
      intro p hp
      exact (per_pack_validation_none c p).mp (List.filterMap_eq_nil_iff.mp he p hp)
    · rw [if_neg (by simp [he])]
      simp only [reduceCtorEq, false_iff]
      intro hall
      exact he (List.filterMap_eq_nil_iff.mpr fun p hp =>
        (per_pack_validation_none c p).mpr (hall p hp))
  · intro p hp content todo hd hparse hser
    have hfp : (if (c.disk (package_todo_path p)).isSome then
        validate_package_todo_format c (package_todo_path p) p.name
      else none) = some (format_error_message (package_todo_path p) c.packs_first_mode) := by
      rw [hd]
      simp only [Option.isSome_some, if_true]
      simp only [validate_package_todo_format, hd, hparse,
        if_neg (fun h => hser (Eq.symm h))]
    have hmem : format_error_message (package_todo_path p) c.packs_first_mode ∈
        c.pack_set.filterMap fun p =>
          if (c.disk (package_todo_path p)).isSome then
            validate_package_todo_format c (package_todo_path p) p.name
          else none :=
      List.mem_filterMap.mpr ⟨p, hp, hfp⟩
    refine ⟨_, ?_, hmem, ?_⟩
    · unfold package_todo_validate
      rw [if_neg (by simp [List.ne_nil_of_mem hmem])]
    · exact ⟨("Package todo file " ++ package_todo_path p) ++
        " is not in the expected format. Please run `", "` to fix it.", rfl⟩

/-- Configuration for the C6 witness: one pack whose ledger file exists,
parses, and does not match the canonical writer's output. -/
def c6_config : Configuration :=
  { pack_set := [{ name := "packs/foo", relative_path := "packs/foo" }],
    disk := fun path =>
      if path == "packs/foo/package_todo.yml" then some "unsorted" else none,
    parse_package_todo := fun _ => some {},
    serialize_package_todo := fun _ _ _ => "sorted" }

theorem c6_format_drift_validator_witness :
    ∃ errs, package_todo_validate c6_config = some errs ∧
      format_error_message (package_todo_path { name := "packs/foo", relative_path := "packs/foo" })
        c6_config.packs_first_mode ∈ errs ∧
      ∃ pre post, format_error_message
        (package_todo_path { name := "packs/foo", relative_path := "packs/foo" })
        c6_config.packs_first_mode = pre ++ fix_command c6_config.packs_first_mode ++ post :=
  (c6_format_drift_validator c6_config).2
    { name := "packs/foo", relative_path := "packs/foo" } (by simp [c6_config])
    "unsorted" {} rfl rfl (by simp [c6_config])

theorem print_defs_mem (root : String) (entries : List (String × List String))
    (out : List (String × String)) (n f : String)
    (hok : print_defs root true entries = .ok out) (hmem : (n, f) ∈ out) :
    ∃ ds, (n, ds) ∈ entries ∧ 1 < ds.length := by
  induction entries generalizing out with
  | nil =>
    unfold print_defs at hok
    obtain rfl : ([] : List (String × String)) = out := by injection hok
    simp at hmem
  | cons hd tl ih =>
    obtain ⟨name, ds⟩ := hd
    unfold print_defs at hok
    by_cases hlen : (true && ds.length == 1) = true
    · rw [if_pos hlen] at hok
      obtain ⟨ds', hds', hlt⟩ := ih out hok hmem
      exact ⟨ds', List.mem_cons_of_mem _ hds', hlt⟩
    · rw [if_neg hlen] at hok
      cases hrel : rel_defs root ds with
      | error e => rw [hrel] at hok; exact absurd hok (by simp)
      | ok rels =>
        rw [hrel] at hok
        cases htail : print_defs root true tl with
        | error e => rw [htail] at hok; exact absurd hok (by simp)
        | ok tail =>
          rw [htail] at hok
          obtain rfl : rels.map (fun rel => (name, rel)) ++ tail = out := by
            injection hok
          rcases List.mem_append.mp hmem with hin | hin
          · obtain ⟨rel, hrelmem, heq⟩ := List.mem_map.mp hin
            obtain ⟨rfl, rfl⟩ : name = n ∧ rel = f := Prod.mk.inj heq
            refine ⟨ds, List.mem_cons_self _ _, ?_⟩
            have hne1 : ds.length ≠ 1 := by simpa using hlen
            have hnil : ds ≠ [] := by
              rintro rfl
              unfold rel_defs at hrel
              obtain rfl : ([] : List String) = rels := by injection hrel
              simp at hrelmem
            have : 0 < ds.length := List.length_pos.mpr hnil
            omega
          · obtain ⟨ds', hds', hlt⟩ := ih tail htail hin
            exact ⟨ds', List.mem_cons_of_mem _ hds', hlt⟩

theorem rel_defs_total (root : String) (ds : List String)
    (h : ∀ path ∈ ds, root.data.isPrefixOf path.data) :
    ∃ rs, rel_defs root ds = .ok rs := by
  induction ds with
  | nil => exact ⟨[], rfl⟩
  | cons hd tl ih =>
    obtain ⟨rs, hrs⟩ := ih fun path hp => h path (List.mem_cons_of_mem _ hp)
    refine ⟨⟨hd.data.drop root.data.length⟩ :: rs, ?_⟩
    unfold rel_defs
    rw [show strip_prefix root hd = .ok ⟨hd.data.drop root.data.length⟩ from
      by unfold strip_prefix; rw [if_pos (h hd (List.mem_cons_self _ _))], hrs]

theorem print_defs_total (root : String) (entries : List (String × List String))
    (ambiguous : Bool)
    (h : ∀ nd ∈ entries, ∀ path ∈ nd.2, root.data.isPrefixOf path.data) :
    ∃ out, print_defs root ambiguous entries = .ok out := by
  induction entries with
  | nil => exact ⟨[], rfl⟩
  | cons hd tl ih =>
    obtain ⟨name, ds⟩ := hd
    obtain ⟨tail, htail⟩ := ih fun nd hnd => h nd (List.mem_cons_of_mem _ hnd)
    by_cases hlen : (ambiguous && ds.length == 1) = true
    · exact ⟨tail, by unfold print_defs; rw [if_pos hlen]; exact htail⟩
    · obtain ⟨rels, hrels⟩ :=
        rel_defs_total root ds (h (name, ds) (List.mem_cons_self _ _))
      refine ⟨rels.map (fun rel => (name, rel)) ++ tail, ?_⟩
      unfold print_defs
      rw [if_neg hlen, hrels, htail]

/-- C8: with the convention-based (Zeitwerk) strategy, requesting
ambiguous-only definition listing is a usage error raised before any
resolution — the error does not depend on any definition data — while with
the experimental full symbol-table strategy the listing succeeds (whenever
the definition paths sit under the project root) and lists only names with
more than one definition. -/
theorem c8_ambiguous_listing (c : Configuration) :
    (c.experimental = false →
      list_definitions c true =
        .error "Ambiguous mode is not supported for the Zeitwerk parser") ∧
    (c.experimental = true →
      (∀ out n f, list_definitions c true = .ok out → (n, f) ∈ out →
        ∃ ds, (n, ds) ∈ c.experimental_definitions ∧ 1 < ds.length) ∧
      ((∀ nd ∈ c.experimental_definitions, ∀ path ∈ nd.2,
          c.absolute_root.data.isPrefixOf path.data) →
        ∃ out, list_definitions c true = .ok out)) := by
  constructor
  · intro hexp
    unfold list_definitions
    rw [hexp]
    rfl
  · intro hexp
    constructor
    · intro out n f hok hmem
      unfold list_definitions at hok
      rw [hexp] at hok
      exact print_defs_mem c.absolute_root c.experimental_definitions out n f hok hmem
    · intro h
      obtain ⟨out, hout⟩ := print_defs_total c.absolute_root c.experimental_definitions true h
      refine ⟨out, ?_⟩
      unfold list_definitions
      rw [hexp]
      exact hout

/-- Configuration for the C8 witness: the experimental strategy with one
ambiguous and one unambiguous constant. -/
def c8_config : Configuration :=
  { pack_set := [],
    experimental := true,
    absolute_root := "/root/",
    experimental_definitions :=
      [("::Foo", ["/root/packs/foo/app/models/foo.rb", "/root/packs/foo/app/services/foo.rb"]),
       ("::Bar", ["/root/packs/bar/app/models/bar.rb"])] }

theorem c8_ambiguous_listing_witness :
    ∃ ds, ("::Foo", ds) ∈ c8_config.experimental_definitions ∧ 1 < ds.length :=
  ((c8_ambiguous_listing c8_config).2 rfl).1
    [("::Foo", "packs/foo/app/models/foo.rb"), ("::Foo", "packs/foo/app/services/foo.rb")]
    "::Foo" "packs/foo/app/models/foo.rb" rfl (by decide)

theorem referencing_pack_ok {r : Reference} {ps : List Pack} {rp : Pack}
    (h : Reference.referencing_pack r ps = .ok rp) :
    for_pack_name ps r.referencing_pack_name = some rp := by
  cases hf : for_pack_name ps r.referencing_pack_name with
  | some p =>
    simp only [Reference.referencing_pack, hf] at h
    obtain rfl : p = rp := by injection h
    rfl
  | none =>
    simp only [Reference.referencing_pack, hf] at h
    exact absurd h (by simp)

theorem defining_pack_ok {r : Reference} {ps : List Pack} {dp : Option Pack}
    (h : Reference.defining_pack r ps = .ok dp) :
    (r.defining_pack_name = none ∧ dp = none) ∨
    (∃ n p, r.defining_pack_name = some n ∧ for_pack_name ps n = some p ∧
      dp = some p) := by
  cases hn : r.defining_pack_name with
  | none =>
    simp only [Reference.defining_pack, hn] at h
    left
    exact ⟨rfl, by injection h with h1; exact h1.symm⟩
  | some n =>
    cases hf : for_pack_name ps n with
    | none =>
      simp only [Reference.defining_pack, hn, hf] at h
      exact absurd h (by simp)
    | some p =>
      simp only [Reference.defining_pack, hn, hf] at h
      right
      exact ⟨n, p, rfl, hf, by injection h with h1; exact h1.symm⟩

theorem new_ok_decompose {c : Configuration} {t : CheckerType} {r : Reference}
    {pc : PackChecker} (h : PackChecker.new c t r = .ok pc) :
    ∃ rp dp, pc = ⟨c, t, rp, dp, r⟩ ∧
      for_pack_name c.pack_set r.referencing_pack_name = some rp ∧
      Reference.defining_pack r c.pack_set = .ok dp := by
  cases h1 : Reference.referencing_pack r c.pack_set with
  | error e =>
    simp only [PackChecker.new, h1] at h
    exact absurd h (by simp)
  | ok rp =>
    cases h2 : Reference.defining_pack r c.pack_set with
    | error e =>
      simp only [PackChecker.new, h1, h2] at h
      exact absurd h (by simp)
    | ok dp =>
      simp only [PackChecker.new, h1, h2] at h
      refine ⟨rp, dp, ?_, referencing_pack_ok h1, rfl⟩
      injection h with h3
      exact h3.symm

theorem new_of_lookups {c : Configuration} {r : Reference} {rp : Pack}
    {dp : Option Pack}
    (hrp : for_pack_name c.pack_set r.referencing_pack_name = some rp)
    (hdp : Reference.defining_pack r c.pack_set = .ok dp) (t : CheckerType) :
    PackChecker.new c t r = .ok ⟨c, t, rp, dp, r⟩ := by
  simp only [PackChecker.new, Reference.referencing_pack, hrp, hdp]

theorem checkable_false_gate (c : Configuration) (t : CheckerType) (rp : Pack)
    (dp : Option Pack) (r : Reference)
    (h : dp = none ∨ ∃ p, dp = some p ∧ p.name = rp.name) :
    PackChecker.checkable ⟨c, t, rp, dp, r⟩ = some false := by
  rcases h with rfl | ⟨p, rfl, hname⟩
  · rfl
  · simp only [PackChecker.checkable]
    rw [if_pos hname]

/-- C1: for every reference and every checker type, when the reference's
defining pack is unresolved or equals the referencing pack, the checkable
gate returns false and no checker produces a violation for that reference. -/
theorem c1_gate_skips_self_and_unresolved (c : Configuration) (t : CheckerType)
    (r : Reference) (pc : PackChecker)
    (hnew : PackChecker.new c t r = .ok pc)
    (hcond : r.defining_pack_name = none ∨
      r.defining_pack_name = some r.referencing_pack_name) :
    pc.checkable = some false ∧ ∀ t', run_checker c t' r = .ok none := by
  obtain ⟨rp, dp, rfl, hrp, hdp⟩ := new_ok_decompose hnew
  have hgate : dp = none ∨ ∃ p, dp = some p ∧ p.name = rp.name := by
    rcases defining_pack_ok hdp with ⟨hn, rfl⟩ | ⟨n, p, hn, hf, rfl⟩
    · exact Or.inl rfl
    · rcases hcond with hcond | hcond
      · rw [hcond] at hn; exact absurd hn (by simp)
      · rw [hcond] at hn
        have hn' : n = r.referencing_pack_name := by injection hn with h1; exact h1.symm
        refine Or.inr ⟨p, rfl, ?_⟩
        rw [for_pack_name_name hf, hn', for_pack_name_name hrp]
  refine ⟨checkable_false_gate c t rp dp r hgate, fun t' => ?_⟩
  simp only [run_checker, new_of_lookups hrp hdp t',
    checkable_false_gate c t' rp dp r hgate]

/-- Configuration for the C1 witness. -/
def c1_config : Configuration :=
  { pack_set := [{ name := "." }, { name := "packs/foo" }] }

/-- A reference whose defining pack is unresolved, for the C1 witness. -/
def c1_ref : Reference :=
  { constant_name := "::Bar", defining_pack_name := none,
    referencing_pack_name := "packs/foo", relative_defining_file := none,
    relative_referencing_file := "packs/foo/app/services/foo.rb",
    source_location := { line := 3, column := 4 } }

theorem c1_gate_skips_self_and_unresolved_witness :
    run_checker c1_config .Privacy c1_ref = .ok none :=
  (c1_gate_skips_self_and_unresolved c1_config .Dependency c1_ref
    { configuration := c1_config, checker_type := .Dependency,
      referencing_pack := { name := "packs/foo" }, defining_pack := none,
      reference := c1_ref } rfl (Or.inl rfl)).2 .Privacy

theorem checkable_isSome_of_rel (c : Configuration) (t : CheckerType)
    (rp p : Pack) (ref : Reference)
    (hrel : ref.relative_defining_file.isSome = true) :
    (PackChecker.checkable ⟨c, t, rp, some p, ref⟩).isSome = true := by
  obtain ⟨file, hfile⟩ := Option.isSome_iff_exists.mp hrel
  cases t <;>
    simp only [PackChecker.checkable, PackChecker.rules_checker_setting,
      PackChecker.rules_pack, PackChecker.violation_direction,
      PackChecker.violation_globally_disabled, PackChecker.is_ignored,
      hfile, Option.map_some'] <;>
    split_ifs <;>
    rfl

/-- C9: every Reference produced by get_all_references has a relative
defining file whenever it has a defining pack name (both derive from the same
resolved defining file path), and under this invariant the checkable gate
never reaches the panicking unwrap of relative_defining_file — checkable is
defined (isSome) for every checker built on such a reference. -/
theorem c9_reference_invariant (owning : String → Option String)
    (relativize : String → String) (raws : List RawReference) (ref : Reference)
    (href : ref ∈ get_all_references owning relativize raws) :
    (ref.defining_pack_name.isSome = true → ref.relative_defining_file.isSome = true) ∧
    ∀ c t pc, PackChecker.new c t ref = .ok pc → (pc.checkable).isSome = true := by
  have hinv : ref.defining_pack_name.isSome = true →
      ref.relative_defining_file.isSome = true := by
    obtain ⟨raw, hraw, hf⟩ := List.mem_filterMap.mp href
    cases ho : owning raw.referencing_file with
    | none =>
      simp only [get_all_references, extra_reference_fields, ho] at hf
      exact absurd hf (by simp)
    | some rpn =>
      simp only [get_all_references, extra_reference_fields, ho] at hf
      obtain rfl : ref = _ := by injection hf with h1; exact h1.symm
      intro hdpn
      have hdpn' : (raw.defining_file_path.bind owning).isSome = true := hdpn
      show (raw.defining_file_path.map relativize).isSome = true
      cases hpath : raw.defining_file_path with
      | none => rw [hpath] at hdpn'; simp at hdpn'
      | some path => rfl
  refine ⟨hinv, fun c t pc hnew => ?_⟩
  obtain ⟨rp, dp, rfl, hrp, hdp⟩ := new_ok_decompose hnew
  rcases defining_pack_ok hdp with ⟨hn, rfl⟩ | ⟨n, p, hn, hf, rfl⟩
  · rfl
  · exact checkable_isSome_of_rel c t rp p ref (hinv (by rw [hn]; rfl))

/-- Raw references for the C9 witness: one resolved, one unresolved. -/
def c9_raws : List RawReference :=
  [{ constant_name := "::Bar", referencing_file := "/r/packs/foo/app/services/foo.rb",
     defining_file_path := some "/r/packs/bar/app/services/bar.rb",
     relative_referencing_file := "packs/foo/app/services/foo.rb",
     source_location := { line := 3, column := 4 } },
   { constant_name := "::Gone", referencing_file := "/r/packs/foo/app/services/foo.rb",
     defining_file_path := none,
     relative_referencing_file := "packs/foo/app/services/foo.rb",
     source_location := { line := 9, column := 2 } }]

/-- Owning-pack index for the C9 witness. -/
def c9_owning : String → Option String := fun path =>
  if path == "/r/packs/foo/app/services/foo.rb" then some "packs/foo"
  else if path == "/r/packs/bar/app/services/bar.rb" then some "packs/bar"
  else none

/-- Relativization for the C9 witness. -/
def c9_relativize : String → String := fun path => ⟨path.data.drop 3⟩

/-- The resolved reference the C9 witness feeds through the invariant. -/
def c9_ref : Reference :=
  { constant_name := "::Bar", defining_pack_name := some "packs/bar",
    referencing_pack_name := "packs/foo",
    relative_defining_file := some "packs/bar/app/services/bar.rb",
    relative_referencing_file := "packs/foo/app/services/foo.rb",
    source_location := { line := 3, column := 4 } }

theorem c9_reference_invariant_witness :
    c9_ref.relative_defining_file.isSome = true :=
  (c9_reference_invariant c9_owning c9_relativize c9_raws c9_ref
    (by decide)).1 (by decide)

/-- Ledger identifier for the C3 counterexample, matching the stale fixture of
src/tests/check_test.rs. -/
def c3_todo : ViolationIdentifier :=
  { violation_type := .Dependency, strict := false,
    file := "packs/foo/app/services/other_foo.rb", constant_name := "::Bar",
    referencing_pack_name := "packs/foo", defining_pack_name := "packs/bar" }

/-- Configuration for the C3 counterexample: no current references, one
recorded ledger entry — the only difference from the ledger is one stale
entry. -/
def c3_config : Configuration := { pack_set := [] }

/-- C3 counterexample: a run whose only difference from the recorded ledger
is a stale entry reports it with the update hint but returns
Err(ViolationsFound) — a non-zero exit — refuting that such a run does not
fail by default. -/
theorem c3_stale_only_run_fails_counterexample :
    check_all c3_config [] [c3_todo] false =
      .ok { reportable_violations := [], stale_violations := [c3_todo],
            strict_mode_violations := [] } ∧
    pks_check c3_config [] [c3_todo] = ([stale_hint_line], .violationsFound) ∧
    pks_check c3_config [] [c3_todo] ≠ ([stale_hint_line], .success) :=
  ⟨rfl, rfl, by decide⟩

/-- C3 (amended): when the only differences from the recorded ledger are
stale entries, the run reports them separately — the text output is exactly
the hint line to run the update operation — and the run fails
(Err(ViolationsFound), non-zero exit) by default. -/
theorem c3_stale_entries_hint_and_fail (c : Configuration) (rs : List Reference)
    (todos : List ViolationIdentifier) (res : CheckAllResult)
    (hok : check_all c rs todos false = .ok res)
    (hrep : res.reportable_violations = [])
    (hstrict : res.strict_mode_violations = [])
    (hstale : res.stale_violations ≠ []) :
    pks_check c rs todos = (write_text_lines res, .violationsFound) ∧
    write_text_lines res = [stale_hint_line] := by
  have hv : res.has_violations = true := by
    simp [CheckAllResult.has_violations, List.isEmpty_eq_false.mpr hstale]
  have hlines : write_text_lines res = [stale_hint_line] := by
    simp [write_text_lines, hv, hrep, hstrict, List.isEmpty_eq_false.mpr hstale]
  refine ⟨?_, hlines⟩
  simp only [pks_check, hok, hv, if_true]

/-- The check result of the C3 runs: one stale entry, nothing else. -/
def c3_res : CheckAllResult :=
  { reportable_violations := [], stale_violations := [c3_todo],
    strict_mode_violations := [] }

theorem c3_stale_entries_hint_and_fail_witness :
    pks_check c3_config [] [c3_todo] = (write_text_lines c3_res, .violationsFound) ∧
    write_text_lines c3_res = [stale_hint_line] :=
  c3_stale_entries_hint_and_fail c3_config [] [c3_todo] c3_res rfl rfl rfl (by simp [c3_res])

/-- C4: a checkable violation is strict exactly when the rule-owning pack's
enforcement setting for the checker type is strict; every strict violation is
placed in strict_mode_violations and never in reportable_violations, is
reported (its strict message is written) even when a matching ledger entry
exists, and causes the run to fail. -/
theorem c4_strict_violations (pc : PackChecker) (li : Option (String × String))
    (s : CheckerSetting) (v : Violation) (vs : List Violation)
    (c : Configuration) (rs : List Reference)
    (hs : pc.rules_checker_setting = some s)
    (hv : pc.violation li = some v)
    (hmem : v ∈ vs)
    (hall : all_violations c rs = .ok vs) :
    (v.identifier.strict = true ↔ s = .Strict) ∧
    (v.identifier.strict = true → ∀ todos : List ViolationIdentifier,
      v ∈ (reconcile vs todos false).strict_mode_violations ∧
      v ∉ (reconcile vs todos false).reportable_violations ∧
      (pks_check c rs todos).2 = .violationsFound ∧
      build_strict_violation_message v.identifier ∈ (pks_check c rs todos).1) := by
  have hstricteq : v.identifier.strict = s.is_strict := by
    cases hid : pc.violation_identifier with
    | none => simp only [PackChecker.violation, hid] at hv; exact absurd hv (by simp)
    | some id =>
      simp only [PackChecker.violation, hid] at hv
      obtain rfl : v = _ := by injection hv with h1; exact h1.symm
      cases hdp : pc.defining_pack with
      | none =>
        simp only [PackChecker.violation_identifier, PackChecker.is_strict, hs,
          Option.map_some', hdp] at hid
        exact absurd hid (by simp)
      | some dp =>
        simp only [PackChecker.violation_identifier, PackChecker.is_strict, hs,
          Option.map_some', hdp] at hid
        obtain rfl : id = _ := by injection hid with h1; exact h1.symm
        rfl
  constructor
  · rw [hstricteq]
    cases s <;> simp [CheckerSetting.is_strict]
  · intro hstrict todos
    have hinstrict : v ∈ (reconcile vs todos false).strict_mode_violations :=
      List.mem_filter.mpr ⟨hmem, hstrict⟩
    have hnotrep : v ∉ (reconcile vs todos false).reportable_violations := by
      intro hm
      have := (List.mem_filter.mp hm).2
      simp [hstrict] at this
    have hresv : (reconcile vs todos false).has_violations = true := by
      have : (reconcile vs todos false).strict_mode_violations ≠ [] :=
        List.ne_nil_of_mem hinstrict
      simp [CheckAllResult.has_violations, List.isEmpty_eq_false.mpr this]
    refine ⟨hinstrict, hnotrep, ?_, ?_⟩
    · simp only [pks_check, check_all, hall, hresv, if_true]
    · simp only [pks_check, check_all, hall]
      unfold write_text_lines
      rw [hresv]
      simp only [Bool.not_true, Bool.false_eq_true, if_false]
      refine List.mem_append.mpr (Or.inr ?_)
      exact List.mem_map_of_mem _ hinstrict

/-- The defining pack of the C4 witness, enforcing privacy strictly. -/
def c4_bar : Pack :=
  { name := "packs/bar", relative_path := "packs/bar",
    enforce_privacy := some .Strict }

/-- The referencing pack of the C4 witness. -/
def c4_foo : Pack := { name := "packs/foo", relative_path := "packs/foo" }

/-- Configuration of the C4 witness: nothing is public, so the reference
below privacy-violates strictly. -/
def c4_config : Configuration :=
  { pack_set := [{ name := "." }, c4_foo, c4_bar],
    file_is_public := fun _ => false }

/-- The reference of the C4 witness. -/
def c4_ref : Reference :=
  { constant_name := "::Bar", defining_pack_name := some "packs/bar",
    referencing_pack_name := "packs/foo",
    relative_defining_file := some "packs/bar/app/services/bar.rb",
    relative_referencing_file := "packs/foo/app/services/foo.rb",
    source_location := { line := 3, column := 4 } }

/-- The strict privacy violation the C4 witness run computes. -/
def c4_v : Violation :=
  { message := "",
    identifier :=
      { violation_type := .Privacy, strict := true,
        file := "packs/foo/app/services/foo.rb", constant_name := "::Bar",
        referencing_pack_name := "packs/foo", defining_pack_name := "packs/bar" },
    source_location := { line := 3, column := 4 },
    referencing_pack_relative_yml := "packs/foo/package.yml",
    defining_layer := none, referencing_layer := none }

/-- A recorded ledger entry matching the C4 witness violation (recorded
entries are non-strict). -/
def c4_todo : ViolationIdentifier := { c4_v.identifier with strict := false }

theorem c4_strict_violations_witness :
    c4_v ∈ (reconcile [c4_v] [c4_todo] false).strict_mode_violations ∧
    c4_v ∉ (reconcile [c4_v] [c4_todo] false).reportable_violations :=
  have h := (c4_strict_violations
    { configuration := c4_config, checker_type := .Privacy,
      referencing_pack := c4_foo, defining_pack := some c4_bar,
      reference := c4_ref } none .Strict c4_v [c4_v] c4_config [c4_ref]
    rfl rfl (List.mem_singleton.mpr rfl) rfl).2 rfl [c4_todo]
  ⟨h.1, h.2.1⟩

theorem pack_set_set_disabled (c : Configuration) (t : CheckerType) :
    (set_disabled c t).pack_set = c.pack_set := by
  cases t <;> rfl

theorem global_flag_set_disabled_self (c : Configuration) (t : CheckerType) :
    global_flag (set_disabled c t) t = true := by
  cases t <;> rfl

theorem global_flag_set_disabled_other (c : Configuration) (t t' : CheckerType)
    (h : t' ≠ t) : global_flag (set_disabled c t) t' = global_flag c t' := by
  cases t <;> cases t' <;> first | rfl | exact absurd rfl h

theorem policy_violated_set_disabled (c : Configuration) (t t' : CheckerType)
    (rp dp : Pack) (r : Reference) :
    policy_violated (set_disabled c t) t' rp dp r = policy_violated c t' rp dp r := by
  cases t <;> cases t' <;> rfl

theorem checkable_config_only (c c' : Configuration) (t0 : CheckerType)
    (rp : Pack) (dp : Option Pack) (r : Reference)
    (hflag : global_flag c' t0 = global_flag c t0) :
    PackChecker.checkable ⟨c', t0, rp, dp, r⟩ =
      PackChecker.checkable ⟨c, t0, rp, dp, r⟩ := by
  simp only [PackChecker.checkable, PackChecker.rules_checker_setting,
    PackChecker.rules_pack, PackChecker.violation_direction,
    PackChecker.violation_globally_disabled, PackChecker.is_ignored, hflag]

theorem checkable_of_global_disabled (c' : Configuration) (t0 : CheckerType)
    (rp : Pack) (dp : Option Pack) (r : Reference)
    (hflag : global_flag c' t0 = true) :
    PackChecker.checkable ⟨c', t0, rp, dp, r⟩ = some false := by
  cases dp with
  | none => rfl
  | some p =>
    obtain ⟨s, hs⟩ : ∃ s, PackChecker.rules_checker_setting ⟨c', t0, rp, some p, r⟩ = some s := by
      cases t0 <;> exact ⟨_, rfl⟩
    simp only [PackChecker.checkable, hs]
    by_cases h1 : p.name = rp.name
    · rw [if_pos h1]
    · rw [if_neg h1]
      by_cases h2 : s.is_false = true
      · rw [if_pos h2]
      · rw [if_neg h2, if_pos (show PackChecker.violation_globally_disabled
          ⟨c', t0, rp, some p, r⟩ = true from hflag)]

theorem violation_type_eq (pc : PackChecker) (li : Option (String × String))
    (v : Violation) (h : pc.violation li = some v) :
    v.identifier.violation_type = pc.checker_type := by
  cases hid : pc.violation_identifier with
  | none =>
    simp only [PackChecker.violation, hid] at h
    exact absurd h (by simp)
  | some id =>
    simp only [PackChecker.violation, hid] at h
    obtain rfl : v = _ := by injection h with h1; exact h1.symm
    cases hst : pc.is_strict with
    | none =>
      simp only [PackChecker.violation_identifier, hst] at hid
      exact absurd hid (by simp)
    | some st =>
      cases hdp : pc.defining_pack with
      | none =>
        simp only [PackChecker.violation_identifier, hst, hdp] at hid
        exact absurd hid (by simp)
      | some dp =>
        simp only [PackChecker.violation_identifier, hst, hdp] at hid
        obtain rfl : id = _ := by injection hid with h1; exact h1.symm
        rfl

theorem run_checker_set_disabled_other (c : Configuration) (t t' : CheckerType)
    (r : Reference) (h : t' ≠ t) :
    run_checker (set_disabled c t) t' r = run_checker c t' r := by
  cases hn : PackChecker.new c t' r with
  | error e =>
    have hn' : PackChecker.new (set_disabled c t) t' r = .error e := by
      cases hr1 : Reference.referencing_pack r c.pack_set with
      | error e1 =>
        simp only [PackChecker.new, pack_set_set_disabled, hr1] at hn ⊢
        exact hn
      | ok rp =>
        cases hr2 : Reference.defining_pack r c.pack_set with
        | error e2 =>
          simp only [PackChecker.new, pack_set_set_disabled, hr1, hr2] at hn ⊢
          exact hn
        | ok dp =>
          simp only [PackChecker.new, pack_set_set_disabled, hr1, hr2] at hn
          exact absurd hn (by simp)
    simp only [run_checker, hn, hn']
  | ok pc =>
    obtain ⟨rp, dp, rfl, hrp, hdp⟩ := new_ok_decompose hn
    have hn' : PackChecker.new (set_disabled c t) t' r =
        .ok ⟨set_disabled c t, t', rp, dp, r⟩ :=
      new_of_lookups (by rw [pack_set_set_disabled]; exact hrp)
        (by rw [pack_set_set_disabled]; exact hdp) t'
    simp only [run_checker, hn, hn']
    rw [show PackChecker.checkable ⟨set_disabled c t, t', rp, dp, r⟩ =
        PackChecker.checkable ⟨c, t', rp, dp, r⟩ from
      checkable_config_only c (set_disabled c t) t' rp dp r
        (global_flag_set_disabled_other c t t' h)]
    cases hc : PackChecker.checkable ⟨c, t', rp, dp, r⟩ with
    | none => rfl
    | some b =>
      cases b
      · rfl
      · cases dp with
        | none => rfl
        | some p =>
          simp only [policy_violated_set_disabled]
          rfl

theorem run_checker_set_disabled_self (c : Configuration) (t : CheckerType)
    (r : Reference) (pc : PackChecker) (hn : PackChecker.new c t r = .ok pc) :
    run_checker (set_disabled c t) t r = .ok none := by
  obtain ⟨rp, dp, rfl, hrp, hdp⟩ := new_ok_decompose hn
  have hn' : PackChecker.new (set_disabled c t) t r =
      .ok ⟨set_disabled c t, t, rp, dp, r⟩ :=
    new_of_lookups (by rw [pack_set_set_disabled]; exact hrp)
      (by rw [pack_set_set_disabled]; exact hdp) t
  have hch : PackChecker.checkable ⟨set_disabled c t, t, rp, dp, r⟩ = some false :=
    checkable_of_global_disabled (set_disabled c t) t rp dp r
      (global_flag_set_disabled_self c t)
  simp only [run_checker, hn', hch]

theorem run_checker_type (c : Configuration) (t : CheckerType) (r : Reference)
    (v : Violation) (h : run_checker c t r = .ok (some v)) :
    v.identifier.violation_type = t := by
  cases hn : PackChecker.new c t r with
  | error e =>
    simp only [run_checker, hn] at h
    exact absurd h (by simp)
  | ok pc =>
    obtain ⟨rp, dp, rfl, hrp, hdp⟩ := new_ok_decompose hn
    simp only [run_checker, hn] at h
    cases hc : PackChecker.checkable ⟨c, t, rp, dp, r⟩ with
    | none =>
      simp only [hc] at h
      exact absurd h (by simp)
    | some b =>
      cases b
      · simp only [hc] at h
        exact absurd h (by simp)
      · simp only [hc] at h
        cases dp with
        | none => exact absurd h (by simp)
        | some p =>
          replace h : (if policy_violated c t rp p r = true then
              match PackChecker.violation ⟨c, t, rp, some p, r⟩
                  (layer_info_for ⟨c, t, rp, some p, r⟩ p) with
              | none => Except.error "panicked: called unwrap on a None value"
              | some v => Except.ok (some v)
            else Except.ok none) = Except.ok (some v) := h
          by_cases hp : policy_violated c t rp p r = true
          · rw [if_pos hp] at h
            cases hv : PackChecker.violation ⟨c, t, rp, some p, r⟩
                (layer_info_for ⟨c, t, rp, some p, r⟩ p) with
            | none =>
              rw [hv] at h
              exact absurd h (by simp)
            | some v' =>
              rw [hv] at h
              obtain rfl : v' = v := by
                injection h with h1
                injection h1
              exact violation_type_eq _ _ _ hv
          · rw [if_neg hp] at h
            exact absurd h (by simp)

theorem check_reference_types_disabled (c : Configuration) (t : CheckerType)
    (r : Reference) (ts : List CheckerType) (vs : List Violation)
    (h : check_reference_types c r ts = .ok vs) :
    check_reference_types (set_disabled c t) r ts =
      .ok (vs.filter fun v => !(v.identifier.violation_type == t)) := by
  induction ts generalizing vs with
  | nil =>
    obtain rfl : ([] : List Violation) = vs := by
      simp only [check_reference_types] at h
      injection h
    rfl
  | cons t' rest ih =>
    cases hr : run_checker c t' r with
    | error e =>
      simp only [check_reference_types, hr] at h
      exact absurd h (by simp)
    | ok ov =>
      cases hrest : check_reference_types c r rest with
      | error e =>
        simp only [check_reference_types, hr, hrest] at h
        exact absurd h (by simp)
      | ok vs' =>
        simp only [check_reference_types, hr, hrest] at h
        obtain rfl : ov.toList ++ vs' = vs := by injection h
        have ihres := ih vs' hrest
        by_cases ht' : t' = t
        · subst ht'
          obtain ⟨pc, hpc⟩ : ∃ pc, PackChecker.new c t' r = .ok pc := by
            cases hnn : PackChecker.new c t' r with
            | error e =>
              simp only [run_checker, hnn] at hr
              exact absurd hr (by simp)
            | ok pc => exact ⟨pc, rfl⟩
          have hself := run_checker_set_disabled_self c t' r pc hpc
          simp only [check_reference_types, hself, ihres]
          have hov : ov.toList.filter
              (fun v => !(v.identifier.violation_type == t')) = [] := by
            cases ov with
            | none => rfl
            | some v =>
              have hty := run_checker_type c t' r v hr
              simp [Option.toList, hty]
          rw [List.filter_append, hov]
          rfl
        · have hother := run_checker_set_disabled_other c t t' r ht'
          simp only [check_reference_types, hother, hr, ihres]
          have hov : ov.toList.filter
              (fun v => !(v.identifier.violation_type == t)) = ov.toList := by
            cases ov with
            | none => rfl
            | some v =>
              have hty := run_checker_type c t' r v hr
              simp [Option.toList, hty, ht']
          rw [List.filter_append, hov]

theorem all_violations_disabled (c : Configuration) (t : CheckerType)
    (rs : List Reference) (vs : List Violation)
    (h : all_violations c rs = .ok vs) :
    all_violations (set_disabled c t) rs =
      .ok (vs.filter fun v => !(v.identifier.violation_type == t)) := by
  induction rs generalizing vs with
  | nil =>
    obtain rfl : ([] : List Violation) = vs := by
      simp only [all_violations] at h
      injection h
    rfl
  | cons r rest ih =>
    cases h1 : check_reference_types c r allCheckerTypes with
    | error e =>
      simp only [all_violations, h1] at h
      exact absurd h (by simp)
    | ok vsr =>
      cases h2 : all_violations c rest with
      | error e =>
        simp only [all_violations, h1, h2] at h
        exact absurd h (by simp)
      | ok vst =>
        simp only [all_violations, h1, h2] at h
        obtain rfl : vsr ++ vst = vs := by injection h
        simp only [all_violations,
          check_reference_types_disabled c t r allCheckerTypes vsr h1, ih vst h2]
        rw [List.filter_append]

/-- C5: running a check with the run-wide disable flag for checker type t
yields exactly the violation set of the same run without the flag minus all
violations of type t; violations of every other checker type are unchanged,
and the reconciled result of the disabled run is the reconciliation of that
filtered set. -/
theorem c5_global_disable_filters_exactly (c : Configuration) (t : CheckerType)
    (rs : List Reference) (vs : List Violation)
    (hok : all_violations c rs = .ok vs) :
    all_violations (set_disabled c t) rs =
      .ok (vs.filter fun v => !(v.identifier.violation_type == t)) ∧
    ∀ todos ig, check_all (set_disabled c t) rs todos ig =
      .ok (reconcile (vs.filter fun v => !(v.identifier.violation_type == t))
        todos ig) := by
  have h1 := all_violations_disabled c t rs vs hok
  exact ⟨h1, fun todos ig => by simp only [check_all, h1]⟩

/-- The referencing pack of the C5 witness, enforcing dependencies. -/
def c5_foo : Pack :=
  { name := "packs/foo", relative_path := "packs/foo",
    enforce_dependencies := some .True }

/-- Configuration of the C5 witness. -/
def c5_config : Configuration :=
  { pack_set := [{ name := "." }, c5_foo, { name := "packs/bar" }] }

/-- The reference of the C5 witness: foo uses bar without declaring it. -/
def c5_ref : Reference :=
  { constant_name := "::Bar", defining_pack_name := some "packs/bar",
    referencing_pack_name := "packs/foo",
    relative_defining_file := some "packs/bar/app/services/bar.rb",
    relative_referencing_file := "packs/foo/app/services/foo.rb",
    source_location := { line := 3, column := 4 } }

/-- The dependency violation the C5 witness baseline run computes. -/
def c5_v : Violation :=
  { message := "",
    identifier :=
      { violation_type := .Dependency, strict := false,
        file := "packs/foo/app/services/foo.rb", constant_name := "::Bar",
        referencing_pack_name := "packs/foo", defining_pack_name := "packs/bar" },
    source_location := { line := 3, column := 4 },
    referencing_pack_relative_yml := "packs/foo/package.yml",
    defining_layer := none, referencing_layer := none }

theorem c5_global_disable_filters_exactly_witness :
    all_violations (set_disabled c5_config .Dependency) [c5_ref] = .ok [] := by
  have h := (c5_global_disable_filters_exactly c5_config .Dependency [c5_ref]
    [c5_v] rfl).1
  simpa using h

end Pks
